import Mathlib

/-!
Verification of the AnyRouter transparent-proxy specification against the
repository's code.

The repository ships the Vue dashboard (frontend) under version control,
while the FastAPI proxy core (`app.py`) is referenced by the README and
design documents but is not among the checked-in source files.  Components
that live only in the missing proxy core (routing table, header/body
transforms, upstream transport) are therefore modelled from the spec, as
marked on each definition.  Everything about the dashboard (key masking,
config store save logic, stats query parameters, log buffer, reconnect
back-off) is embedded directly from the TypeScript/Vue sources.
-/

namespace AnyRouter

/-! ## Routing table (spec §4.1) -/

/-- Modelled from the spec: a target mapping pairs an upstream base URL with
the set of credentials routed to it (`app.py` is absent from the sources). -/
structure TargetMapping where
  target_base_url : String
  keys : List String
deriving DecidableEq, Repr

/-- Modelled from the spec: the routing table is an ordered collection of
target mappings plus one default target base URL. -/
structure RoutingTable where
  mappings : List TargetMapping
  default_target_base_url : String
deriving DecidableEq, Repr

/-- Modelled from the spec: if the credential matches a mapping key, return
that mapping's target, otherwise return the default target base URL. -/
def resolve (t : RoutingTable) (credential : String) : String :=
  match t.mappings.find? (fun m => m.keys.contains credential) with
  | some m => m.target_base_url
  | none => t.default_target_base_url

/-- A credential is registered when some mapping in the table lists it. -/
def registeredTo (t : RoutingTable) (credential : String) (m : TargetMapping) : Prop :=
  m ∈ t.mappings ∧ credential ∈ m.keys

/-! ## Header filtering (spec §4.2) -/

/-- ASCII lower-casing of a single character, as used for case-insensitive
header-name comparison. -/
def lowerChar (c : Char) : Char :=
  if 'A' ≤ c ∧ c ≤ 'Z' then Char.ofNat (c.toNat + 32) else c

/-- ASCII lower-casing of a whole string. -/
def lowerAscii (s : String) : String :=
  String.mk (s.data.map lowerChar)

/-- Case-insensitive equality of header names. -/
def ciEq (a b : String) : Bool :=
  lowerAscii a = lowerAscii b

/-- Modelled from the spec: the RFC 7230 hop-by-hop set plus Content-Length,
the nine names removed by the proxy's request-header filter. -/
def blockedHeaderNames : List String :=
  ["Connection", "Keep-Alive", "Proxy-Authenticate", "Proxy-Authorization",
   "TE", "Trailers", "Transfer-Encoding", "Upgrade", "Content-Length"]

/-- A header is a name/value pair. -/
abbrev Header := String × String

/-- Modelled from the spec: removes, case-insensitively, the hop-by-hop set
plus Content-Length, and keeps every other header unchanged. -/
def filter_request_headers (headers : List Header) : List Header :=
  headers.filter (fun h => !(blockedHeaderNames.any (fun b => ciEq h.1 b)))

end AnyRouter

namespace AnyRouter

/-- C1 helper: the claim of C1, stated over the mapping that holds the key. -/
theorem resolve_registered (t : RoutingTable) (k : String) (m : TargetMapping)
    (hreg : registeredTo t k m)
    (huniq : ∀ m' ∈ t.mappings, k ∈ m'.keys → m'.target_base_url = m.target_base_url) :
    resolve t k = m.target_base_url := by
  obtain ⟨hmem, hkey⟩ := hreg
  unfold resolve
  have hsome : (t.mappings.find? (fun m' => m'.keys.contains k)).isSome := by
    apply List.find?_isSome.mpr
    exact ⟨m, hmem, by simpa using hkey⟩
  obtain ⟨m', hm'⟩ := Option.isSome_iff_exists.mp hsome
  rw [hm']
  have hpm' := List.find?_some hm'
  have hmem' : m' ∈ t.mappings := List.mem_of_find?_eq_some hm'
  show m'.target_base_url = m.target_base_url
  exact huniq m' hmem' (by simpa using hpm')

theorem resolve_unregistered (t : RoutingTable) (k : String)
    (h : ∀ m ∈ t.mappings, k ∉ m.keys) :
    resolve t k = t.default_target_base_url := by
  unfold resolve
  have : t.mappings.find? (fun m => m.keys.contains k) = none := by
    apply List.find?_eq_none.mpr
    intro m hm
    simpa using h m hm
  rw [this]

/-- C1: if credential k is registered as a key of target mapping T in the
routing table (and, per the table invariant, no mapping with a different
target also lists k), resolve returns T's target base URL; if k is
registered to no mapping, resolve returns the default target base URL. -/
theorem claim_C1_resolve (t : RoutingTable) (k : String) :
    (∀ m, registeredTo t k m →
      (∀ m' ∈ t.mappings, k ∈ m'.keys → m'.target_base_url = m.target_base_url) →
      resolve t k = m.target_base_url) ∧
    ((∀ m ∈ t.mappings, k ∉ m.keys) → resolve t k = t.default_target_base_url) := by
  constructor
  · intro m hreg huniq
    exact resolve_registered t k m hreg huniq
  · intro h
    exact resolve_unregistered t k h

/-- Concrete routing table from the spec's scenario: key sk-B routes to
b.example.com, anything else to the default target. -/
def scenarioTable : RoutingTable :=
  { mappings := [{ target_base_url := "https://b.example.com", keys := ["sk-B"] }],
    default_target_base_url := "https://anyrouter.top" }

theorem claim_C1_resolve_witness :
    resolve scenarioTable "sk-B" = "https://b.example.com" ∧
    resolve scenarioTable "sk-unregistered" = "https://anyrouter.top" := by
  constructor
  · exact (claim_C1_resolve scenarioTable "sk-B").1
      { target_base_url := "https://b.example.com", keys := ["sk-B"] }
      (by constructor <;> decide) (by decide)
  · exact (claim_C1_resolve scenarioTable "sk-unregistered").2 (by decide)

/-- C3: the filtered request headers contain none of the nine hop-by-hop
names under case-insensitive comparison, every header whose name is not in
that set is preserved unchanged, and nothing new is added. -/
theorem claim_C3_filter_request_headers (headers : List Header) :
    (∀ h ∈ filter_request_headers headers, ∀ b ∈ blockedHeaderNames, ciEq h.1 b = false) ∧
    (∀ h ∈ headers, (∀ b ∈ blockedHeaderNames, ciEq h.1 b = false) →
      h ∈ filter_request_headers headers) ∧
    (∀ h ∈ filter_request_headers headers, h ∈ headers) := by
  refine ⟨?_, ?_, ?_⟩
  · intro h hmem b hb
    have hp := (List.mem_filter.mp hmem).2
    simp only [Bool.not_eq_true', List.any_eq_false] at hp
    simpa using hp b hb
  · intro h hmem hblocked
    apply List.mem_filter.mpr
    refine ⟨hmem, ?_⟩
    simp only [Bool.not_eq_true', List.any_eq_false]
    intro b hb
    simpa using hblocked b hb
  · intro h hmem
    exact (List.mem_filter.mp hmem).1

/-- Concrete header list exercising the filter: hop-by-hop names in mixed
case are dropped, other headers survive unchanged. -/
def scenarioHeaders : List Header :=
  [("connection", "keep-alive"), ("Authorization", "Bearer sk-B"),
   ("Content-Length", "42"), ("X-Api-Key", "sk-B"), ("UPGRADE", "h2c")]

theorem claim_C3_filter_request_headers_witness :
    ("Authorization", "Bearer sk-B") ∈ filter_request_headers scenarioHeaders ∧
    (∀ b ∈ blockedHeaderNames, ciEq "X-Api-Key" b = false) := by
  constructor
  · exact (claim_C3_filter_request_headers scenarioHeaders).2.1
      ("Authorization", "Bearer sk-B") (by decide) (by decide)
  · have := (claim_C3_filter_request_headers scenarioHeaders).1
      ("X-Api-Key", "sk-B") (by decide)
    simpa using this

/-! ## Body transform (spec §4.2, transform_body) -/

mutual
/-- JSON documents. A mutually inductive presentation (arrays and objects
as their own types) keeps every function structurally recursive. -/
inductive Json where
  | null : Json
  | bool (b : Bool) : Json
  | num (n : Int) : Json
  | str (s : String) : Json
  | arr (a : JsonArr) : Json
  | obj (o : JsonObj) : Json
deriving DecidableEq, Repr

/-- Lists of JSON values (array elements). -/
inductive JsonArr where
  | nil : JsonArr
  | cons (hd : Json) (tl : JsonArr) : JsonArr
deriving DecidableEq, Repr

/-- Association lists of JSON object fields, in insertion order. -/
inductive JsonObj where
  | nil : JsonObj
  | cons (k : String) (v : Json) (tl : JsonObj) : JsonObj
deriving DecidableEq, Repr
end

/-- Look up the first field with the given name. -/
def findField : JsonObj → String → Option Json
  | .nil, _ => none
  | .cons k v tl, name => if k = name then some v else findField tl name

/-- Overwrite the first field with the given name (appending when absent). -/
def setField : JsonObj → String → Json → JsonObj
  | .nil, name, v => .cons name v .nil
  | .cons k old tl, name, v =>
    if k = name then .cons k v tl else .cons k old (setField tl name v)

/-- Name of the expected array field in the request body. -/
def systemField : String := "system"

/-- Name of the text field inside each array element. -/
def textField : String := "text"

/-- Modelled from the spec: the transform runs in replacement mode or insert
mode (`app.py` is absent from the sources). -/
inductive TransformMode where
  | replacement : TransformMode
  | insertMode : TransformMode
deriving DecidableEq, Repr

/-- Modelled from the spec: transform configuration — the mode flag, the
configured replacement string, and the insert-mode marker substring. -/
structure TransformConfig where
  mode : TransformMode
  replacementText : String
  marker : String
deriving DecidableEq, Repr

/-- Boolean check that the first list is an initial segment of the second. -/
def leadsList : List Char → List Char → Bool
  | [], _ => true
  | _ :: _, [] => false
  | a :: as, b :: bs => a = b && leadsList as bs

/-- Boolean substring check: does pat occur contiguously inside s? -/
def occursIn (pat : List Char) : List Char → Bool
  | [] => leadsList pat []
  | c :: rest => leadsList pat (c :: rest) || occursIn pat rest

/-- Does the text contain the marker as a substring? -/
def containsText (text marker : String) : Bool :=
  occursIn marker.data text.data

/-- Overwrite the element's text field with the replacement string (elements
that are not objects are left untouched). -/
def overwriteText (e : Json) (repl : String) : Json :=
  match e with
  | .obj fs => .obj (setField fs textField (.str repl))
  | other => other

/-- Read the element's text field when it is a string. -/
def elementText (e : Json) : Option String :=
  match e with
  | .obj fs =>
    match findField fs textField with
    | some (.str t) => some t
    | _ => none
  | _ => none

/-- Modelled from the spec: the structural part of transform_body on a
parsed document.  Returns none when the document lacks a non-empty system
array (the fail-open cases); otherwise rewrites the first element per the
configured mode. -/
def transform_json (cfg : TransformConfig) (j : Json) : Option Json :=
  match j with
  | .obj fields =>
    match findField fields systemField with
    | some (.arr (.cons e rest)) =>
      match cfg.mode with
      | .replacement =>
        some (.obj (setField fields systemField
          (.arr (.cons (overwriteText e cfg.replacementText) rest))))
      | .insertMode =>
        match elementText e with
        | some t =>
          if containsText t cfg.marker then
            some (.obj (setField fields systemField
              (.arr (.cons (overwriteText e cfg.replacementText) rest))))
          else
            some (.obj (setField fields systemField
              (.arr (.cons (.obj (.cons textField (.str cfg.replacementText) .nil))
                (.cons e rest)))))
        | none =>
          some (.obj (setField fields systemField
            (.arr (.cons (.obj (.cons textField (.str cfg.replacementText) .nil))
              (.cons e rest)))))
    | _ => none
  | _ => none

/-- Modelled from the spec: transform_body parses the body (parse models the
JSON decoder), transforms the document, and re-serializes (ser models the
encoder); every failure path returns the original bytes unchanged. -/
def transform_body (parse : String → Option Json) (ser : Json → Option String)
    (cfg : TransformConfig) (body : String) : String :=
  match parse body with
  | none => body
  | some j =>
    match transform_json cfg j with
    | none => body
    | some j2 =>
      match ser j2 with
      | none => body
      | some out => out

/-- The document has the expected array field, non-empty. -/
def hasNonEmptySystemArray (j : Json) : Prop :=
  ∃ fields e rest, j = Json.obj fields ∧
    findField fields systemField = some (Json.arr (JsonArr.cons e rest))

theorem transform_json_none_of_lacks (cfg : TransformConfig) (j : Json)
    (h : ¬ hasNonEmptySystemArray j) : transform_json cfg j = none := by
  unfold transform_json
  split
  case _ fields =>
    split
    case _ e rest heq =>
      exact absurd ⟨fields, e, rest, rfl, heq⟩ h
    case _ => rfl
  case _ => rfl

/-- Looking up any other name is unaffected by setField. -/
theorem findField_setField_ne : ∀ (fs : JsonObj) (name : String) (v : Json)
    (k : String), k ≠ name → findField (setField fs name v) k = findField fs k
  | .nil, name, v, k, hk => by
    simp only [setField, findField]
    rw [if_neg (fun h => hk h.symm)]
  | .cons k' v' tl, name, v, k, hk => by
    by_cases h : k' = name
    · subst h
      simp only [setField, if_pos rfl, findField]
      rw [if_neg (fun h => hk h.symm), if_neg (fun h => hk h.symm)]
    · simp only [setField, if_neg h, findField]
      by_cases h2 : k' = k
      · rw [if_pos h2, if_pos h2]
      · rw [if_neg h2, if_neg h2, findField_setField_ne tl name v k hk]

/-- The spec's concrete scenario input, parsed. -/
def sampleBodyJson : Json :=
  Json.obj (JsonObj.cons "system"
    (Json.arr (JsonArr.cons (Json.obj (JsonObj.cons "text" (Json.str "original") JsonObj.nil))
      JsonArr.nil)) JsonObj.nil)

/-- The spec's concrete scenario output, parsed. -/
def expectedBodyJson : Json :=
  Json.obj (JsonObj.cons "system"
    (Json.arr (JsonArr.cons (Json.obj (JsonObj.cons "text" (Json.str "X") JsonObj.nil))
      JsonArr.nil)) JsonObj.nil)

/-- Replacement-mode configuration with replacement text X. -/
def replacementConfigX : TransformConfig :=
  { mode := TransformMode.replacement, replacementText := "X", marker := "<marker>" }

/-- C2: transform_body fails open — on an unparseable body, on a document
lacking a non-empty system array, and on re-serialization failure it returns
the original input unchanged; it has no error result at all (its result type
is the body itself). -/
theorem claim_C2_transform_body_fail_open (parse : String → Option Json)
    (ser : Json → Option String) (cfg : TransformConfig) (body : String) :
    (parse body = none → transform_body parse ser cfg body = body) ∧
    (∀ j, parse body = some j → ¬ hasNonEmptySystemArray j →
      transform_body parse ser cfg body = body) ∧
    (∀ j j2, parse body = some j → transform_json cfg j = some j2 → ser j2 = none →
      transform_body parse ser cfg body = body) := by
  refine ⟨?_, ?_, ?_⟩
  · intro h
    simp only [transform_body, h]
  · intro j hj hlacks
    simp only [transform_body, hj, transform_json_none_of_lacks cfg j hlacks]
  · intro j j2 hj ht hs
    simp only [transform_body, hj, ht, hs]

theorem claim_C2_transform_body_fail_open_witness :
    transform_body (fun _ => none) (fun _ => none) replacementConfigX "not json" = "not json" ∧
    transform_body (fun _ => some (Json.obj JsonObj.nil)) (fun _ => none)
      replacementConfigX "a" = "a" ∧
    transform_body (fun _ => some sampleBodyJson) (fun _ => none)
      replacementConfigX "b" = "b" := by
  refine ⟨?_, ?_, ?_⟩
  · exact (claim_C2_transform_body_fail_open (fun _ => none) (fun _ => none)
      replacementConfigX "not json").1 rfl
  · apply (claim_C2_transform_body_fail_open (fun _ => some (Json.obj JsonObj.nil))
      (fun _ => none) replacementConfigX "a").2.1 (Json.obj JsonObj.nil) rfl
    rintro ⟨fields, e, rest, hj, hf⟩
    injection hj with h
    subst h
    simp [findField] at hf
  · exact (claim_C2_transform_body_fail_open (fun _ => some sampleBodyJson)
      (fun _ => none) replacementConfigX "b").2.2 sampleBodyJson expectedBodyJson
      rfl rfl rfl

/-- C4: in replacement mode the transform overwrites exactly the text field
of the first element of the system array (every other field lookup is
unchanged, as the setField conjunct states for all objects), and the spec's
concrete scenario holds: the body parsed from the original document with
replacement text X serializes back from the expected document. -/
theorem claim_C4_replacement_mode (cfg : TransformConfig) (fields : JsonObj)
    (e : Json) (rest : JsonArr) (hmode : cfg.mode = TransformMode.replacement)
    (hf : findField fields systemField = some (Json.arr (JsonArr.cons e rest))) :
    (transform_json cfg (Json.obj fields) =
      some (Json.obj (setField fields systemField
        (Json.arr (JsonArr.cons (overwriteText e cfg.replacementText) rest))))) ∧
    (∀ (fs : JsonObj) (name : String) (v : Json) (k : String), k ≠ name →
      findField (setField fs name v) k = findField fs k) ∧
    (transform_json replacementConfigX sampleBodyJson = some expectedBodyJson) ∧
    (∀ (parse : String → Option Json) (ser : Json → Option String) (body out : String),
      parse body = some sampleBodyJson → ser expectedBodyJson = some out →
      transform_body parse ser replacementConfigX body = out) := by
  refine ⟨?_, findField_setField_ne, rfl, ?_⟩
  · simp only [transform_json, hf, hmode]
  · intro parse ser body out hp hs
    have ht : transform_json replacementConfigX sampleBodyJson = some expectedBodyJson := rfl
    simp only [transform_body, hp, ht, hs]

theorem claim_C4_replacement_mode_witness :
    transform_body (fun _ => some sampleBodyJson)
      (fun j => if j = expectedBodyJson then some "serialized-X" else none)
      replacementConfigX "raw-body" = "serialized-X" := by
  exact (claim_C4_replacement_mode replacementConfigX
    (JsonObj.cons "system"
      (Json.arr (JsonArr.cons (Json.obj (JsonObj.cons "text" (Json.str "original") JsonObj.nil))
        JsonArr.nil)) JsonObj.nil)
    (Json.obj (JsonObj.cons "text" (Json.str "original") JsonObj.nil)) JsonArr.nil
    rfl (by decide)).2.2.2
    (fun _ => some sampleBodyJson)
    (fun j => if j = expectedBodyJson then some "serialized-X" else none)
    "raw-body" "serialized-X" rfl (by simp)

/-! ## Upstream transport and dispatcher failure handling (spec §4.3, §4.4) -/

/-- Modelled from the spec: how the upstream behaves for a given request —
it responds within the per-request timeout, produces no response within the
timeout, or the connection fails (`app.py` is absent from the sources). -/
inductive UpstreamOutcome where
  | responded (status : Nat) : UpstreamOutcome
  | timedOut : UpstreamOutcome
  | connectFailed : UpstreamOutcome
deriving DecidableEq, Repr

/-- Modelled from the spec: the typed error the caller of forward receives
on timeout or connection failure. -/
inductive UpstreamError where
  | upstreamUnavailable (isTimeout : Bool) : UpstreamError
deriving DecidableEq, Repr

/-- Modelled from the spec: the stream handle a successful forward returns. -/
structure StreamHandle where
  status : Nat
deriving DecidableEq, Repr

/-- Modelled from the spec: forward either yields a stream handle or a typed
UpstreamUnavailable error on timeout / connection failure. -/
def forward (o : UpstreamOutcome) : Except UpstreamError StreamHandle :=
  match o with
  | .responded s => Except.ok { status := s }
  | .timedOut => Except.error (UpstreamError.upstreamUnavailable true)
  | .connectFailed => Except.error (UpstreamError.upstreamUnavailable false)

/-- Terminal status of a request context. -/
inductive CtxStatus where
  | pending : CtxStatus
  | success : CtxStatus
  | errored : CtxStatus
deriving DecidableEq, Repr

/-- Per-request record (spec §3), restricted to the fields the claims use. -/
structure RequestContext where
  request_id : String
  status : CtxStatus
  error_detail : Option String
deriving DecidableEq, Repr

/-- The stats aggregator's retained-request ring (spec §3, §4.5). -/
structure Telemetry where
  recentRequests : List RequestContext
deriving DecidableEq, Repr

/-- Recording a terminal context pushes it into the retained-request ring. -/
def recordTerminal (t : Telemetry) (ctx : RequestContext) : Telemetry :=
  { recentRequests := ctx :: t.recentRequests }

/-- Modelled from the spec: the dispatcher converts a forward error into a
502 response (504 for timeout), stores the detail in the request context,
and records the context in telemetry before finalizing the response. -/
def dispatch (ctx : RequestContext) (t : Telemetry) (o : UpstreamOutcome) :
    Nat × RequestContext × Telemetry :=
  match forward o with
  | Except.ok h =>
    let ctx2 := { ctx with status := CtxStatus.success }
    (h.status, ctx2, recordTerminal t ctx2)
  | Except.error (UpstreamError.upstreamUnavailable isTimeout) =>
    let ctx2 := { ctx with
      status := CtxStatus.errored,
      error_detail := some (if isTimeout then "upstream timeout" else "upstream connection failed") }
    ((if isTimeout then 504 else 502), ctx2, recordTerminal t ctx2)

/-- C5: when the upstream times out or the connection fails, the caller of
forward receives a typed UpstreamUnavailable error, the client receives 504
(timeout) or 502 (connection failure), and the request's context lands in
telemetry with errored status and a non-null error detail. -/
theorem claim_C5_upstream_failure (ctx : RequestContext) (t : Telemetry)
    (o : UpstreamOutcome) (h : o = UpstreamOutcome.timedOut ∨ o = UpstreamOutcome.connectFailed) :
    (∃ b, forward o = Except.error (UpstreamError.upstreamUnavailable b)) ∧
    (dispatch ctx t o).1 = (if o = UpstreamOutcome.timedOut then 504 else 502) ∧
    (dispatch ctx t o).2.1.status = CtxStatus.errored ∧
    (dispatch ctx t o).2.1.error_detail ≠ none ∧
    (dispatch ctx t o).2.1 ∈ (dispatch ctx t o).2.2.recentRequests := by
  rcases h with rfl | rfl
  · refine ⟨⟨true, rfl⟩, ?_, rfl, ?_, ?_⟩
    · simp [dispatch, forward]
    · simp [dispatch, forward]
    · simp [dispatch, forward, recordTerminal]
  · refine ⟨⟨false, rfl⟩, ?_, rfl, ?_, ?_⟩
    · simp [dispatch, forward]
    · simp [dispatch, forward]
    · simp [dispatch, forward, recordTerminal]

theorem claim_C5_upstream_failure_witness :
    (dispatch { request_id := "r1", status := CtxStatus.pending, error_detail := none }
      { recentRequests := [] } UpstreamOutcome.timedOut).1 = 504 ∧
    (dispatch { request_id := "r1", status := CtxStatus.pending, error_detail := none }
      { recentRequests := [] } UpstreamOutcome.connectFailed).1 = 502 := by
  constructor
  · have := claim_C5_upstream_failure
      { request_id := "r1", status := CtxStatus.pending, error_detail := none }
      { recentRequests := [] } UpstreamOutcome.timedOut (Or.inl rfl)
    simpa using this.2.1
  · have := claim_C5_upstream_failure
      { request_id := "r1", status := CtxStatus.pending, error_detail := none }
      { recentRequests := [] } UpstreamOutcome.connectFailed (Or.inr rfl)
    simpa using this.2.1

/-! ## Key masking in the dashboard (frontend/src/components/KeyMappingManager.vue) -/

/-- Embedded from KeyMappingManager.vue: keys of length at most 8 display as
four asterisks, longer keys as their first 8 characters followed by an
ellipsis. -/
def maskKey (key : String) : String :=
  if key.length ≤ 8 then "****" else String.mk (key.data.take 8) ++ "..."

/-- Embedded from the KeyMappingManager.vue template: an authenticated
viewer sees the full key, an anonymous viewer sees the masked key. -/
def displayedKey (isAuthenticated : Bool) (key : String) : String :=
  if isAuthenticated then key else maskKey key

/-- C6: anonymous viewers see maskKey of each key — four asterisks for keys
of length at most 8, the first 8 characters plus an ellipsis otherwise — so
two long keys agreeing on their first 8 characters are displayed
identically (nothing past the 8th character is revealed), while an
authenticated viewer sees the full key. -/
theorem claim_C6_maskKey (k k1 k2 : String) :
    (displayedKey false k = maskKey k) ∧
    (k.length ≤ 8 → displayedKey false k = "****") ∧
    (8 < k.length → displayedKey false k = String.mk (k.data.take 8) ++ "...") ∧
    (8 < k1.length → 8 < k2.length → k1.data.take 8 = k2.data.take 8 →
      displayedKey false k1 = displayedKey false k2) ∧
    (displayedKey true k = k) := by
  refine ⟨rfl, ?_, ?_, ?_, rfl⟩
  · intro h
    simp only [displayedKey, if_neg Bool.false_ne_true, maskKey, if_pos h]
  · intro h
    simp only [displayedKey, if_neg Bool.false_ne_true, maskKey, if_neg (Nat.not_le_of_lt h)]
  · intro h1 h2 htake
    simp only [displayedKey, if_neg Bool.false_ne_true, maskKey,
      if_neg (Nat.not_le_of_lt h1), if_neg (Nat.not_le_of_lt h2), htake]

theorem claim_C6_maskKey_witness :
    displayedKey false "sk-short" = "****" ∧
    displayedKey false "sk-abcde-SECRET-1" = displayedKey false "sk-abcde-SECRET-2" ∧
    displayedKey true "sk-abcde-SECRET-1" = "sk-abcde-SECRET-1" := by
  refine ⟨?_, ?_, ?_⟩
  · exact (claim_C6_maskKey "sk-short" "" "").2.1 (by decide)
  · exact (claim_C6_maskKey "" "sk-abcde-SECRET-1" "sk-abcde-SECRET-2").2.2.2.1
      (by decide) (by decide) (by decide)
  · exact (claim_C6_maskKey "sk-abcde-SECRET-1" "" "").2.2.2.2

/-! ## Log buffer bound (frontend/src/stores/index.ts, addLog) -/

/-- Embedded from the logs store: a new entry is prepended; when the buffer
exceeds maxLogs it is truncated to its first maxLogs entries. -/
def addLog (log : String) (logs : List String) (maxLogs : Nat) : List String :=
  if (log :: logs).length > maxLogs then (log :: logs).take maxLogs else log :: logs

/-- C9: after any addLog call the buffer holds exactly the newest maxLogs
entries in newest-first order — it equals the prepend truncated to maxLogs,
its length never exceeds maxLogs, and (for a positive bound) the newest
entry sits at index 0. -/
theorem claim_C9_addLog (log : String) (logs : List String) (maxLogs : Nat)
    (hpos : 0 < maxLogs) :
    addLog log logs maxLogs = (log :: logs).take maxLogs ∧
    (addLog log logs maxLogs).length ≤ maxLogs ∧
    (addLog log logs maxLogs).head? = some log := by
  have heq : addLog log logs maxLogs = (log :: logs).take maxLogs := by
    unfold addLog
    by_cases h : (log :: logs).length > maxLogs
    · rw [if_pos h]
    · rw [if_neg h, List.take_of_length_le (Nat.le_of_not_lt h)]
  refine ⟨heq, ?_, ?_⟩
  · rw [heq]
    simp
  · rw [heq]
    cases maxLogs with
    | zero => exact absurd hpos (by simp)
    | succ n => rfl

theorem claim_C9_addLog_witness :
    addLog "new" ["c", "b", "a"] 3 = ["new", "c", "b"] ∧
    (addLog "new" ["c", "b", "a"] 3).length ≤ 3 ∧
    (addLog "new" ["c", "b", "a"] 3).head? = some "new" := by
  have h := claim_C9_addLog "new" ["c", "b", "a"] 3 (by decide)
  exact ⟨h.1.trans (by decide), h.2.1, h.2.2⟩

/-! ## Reconnect back-off (frontend/src/composables/useRealtime.ts) -/

/-- Embedded from useRealtime.ts: reconnect configuration. -/
structure ReconnectConfig where
  maxRetries : Nat
  initialDelay : Nat
  maxDelay : Nat
  backoffFactor : Nat
deriving DecidableEq, Repr

/-- Embedded from useRealtime.ts: the default reconnect configuration. -/
def DEFAULT_RECONNECT_CONFIG : ReconnectConfig :=
  { maxRetries := 10, initialDelay := 1000, maxDelay := 30000, backoffFactor := 2 }

/-- Embedded from useRealtime.ts: exponential back-off capped at maxDelay. -/
def calculateReconnectDelay (cfg : ReconnectConfig) (retryNumber : Nat) : Nat :=
  min (cfg.initialDelay * cfg.backoffFactor ^ retryNumber) cfg.maxDelay

/-- Connection states of the realtime composable. -/
inductive ConnectionState where
  | disconnected : ConnectionState
  | connecting : ConnectionState
  | connected : ConnectionState
  | reconnecting : ConnectionState
  | errorState : ConnectionState
deriving DecidableEq, Repr

/-- Embedded from useRealtime.ts: scheduleReconnect either gives up (at the
retry cap) settling in the error state with no timer, or schedules a timer
with the computed delay and enters the reconnecting state. -/
def scheduleReconnect (cfg : ReconnectConfig) (retryCount : Nat) :
    Option Nat × ConnectionState :=
  if retryCount ≥ cfg.maxRetries then
    (none, ConnectionState.errorState)
  else
    (some (calculateReconnectDelay cfg retryCount), ConnectionState.reconnecting)

/-- C10: under the default configuration the reconnect delay is
min(1000·2^n, 30000), monotonically non-decreasing and never above 30000,
and once retryCount reaches maxRetries (10) no further attempt is scheduled
and the composable settles in the error state. -/
theorem claim_C10_reconnect (n retryCount : Nat) (hcap : 10 ≤ retryCount) :
    calculateReconnectDelay DEFAULT_RECONNECT_CONFIG n = min (1000 * 2 ^ n) 30000 ∧
    calculateReconnectDelay DEFAULT_RECONNECT_CONFIG n ≤
      calculateReconnectDelay DEFAULT_RECONNECT_CONFIG (n + 1) ∧
    calculateReconnectDelay DEFAULT_RECONNECT_CONFIG n ≤ 30000 ∧
    scheduleReconnect DEFAULT_RECONNECT_CONFIG retryCount =
      (none, ConnectionState.errorState) := by
  refine ⟨rfl, ?_, ?_, ?_⟩
  · exact min_le_min
      (Nat.mul_le_mul (le_refl 1000) (Nat.pow_le_pow_right (by decide) (Nat.le_succ n)))
      (le_refl 30000)
  · exact Nat.min_le_right _ _
  · have hc : retryCount ≥ DEFAULT_RECONNECT_CONFIG.maxRetries := hcap
    simp only [scheduleReconnect]
    rw [if_pos hc]

theorem claim_C10_reconnect_witness :
    calculateReconnectDelay DEFAULT_RECONNECT_CONFIG 3 = min (1000 * 2 ^ 3) 30000 ∧
    scheduleReconnect DEFAULT_RECONNECT_CONFIG 10 = (none, ConnectionState.errorState) := by
  have h := claim_C10_reconnect 3 10 (by decide)
  exact ⟨h.1, h.2.2.2⟩

/-! ## Stats query time parameters (frontend/src/services/api.ts, statsApi.getStats) -/

/-- Is the character an ASCII digit? -/
def isDigitChar (c : Char) : Bool :=
  '0' ≤ c && c ≤ '9'

/-- Numeric value of a digit string, most significant digit first. -/
def digitsToNat (ds : List Char) : Nat :=
  ds.foldl (fun a c => a * 10 + (c.toNat - 48)) 0

/-- The search parameters getStats attaches to the request: none at all, an
explicit start/end window, or the raw string passed through as time_range. -/
inductive StatsTimeParams where
  | noParams : StatsTimeParams
  | windowParams (start_time : Int) (end_time : Nat) : StatsTimeParams
  | passThrough (time_range : String) : StatsTimeParams
deriving DecidableEq, Repr

/-- Embedded from api.ts: the condition the regex imposes, phrased on the
lower-cased unit character and the digit run before it. -/
def durationCondition (lu : Char) (ds : List Char) : Bool :=
  (lu == 'm' || lu == 'h') && !ds.isEmpty && ds.all isDigitChar

/-- Embedded from api.ts: the regex ^(\d+)([mh])$ (case-insensitive) as a
function on the character list — one or more digits followed by m or h —
returning the numeric value and the lower-cased unit. -/
def matchDuration (cs : List Char) : Option (Nat × Char) :=
  match cs.getLast? with
  | none => none
  | some u =>
    if durationCondition (lowerChar u) cs.dropLast then
      some (digitsToNat cs.dropLast, lowerChar u)
    else
      none

/-- Embedded from api.ts: which time parameters statsApi.getStats sends for
a given timeRange argument and current clock (milliseconds). -/
def getStats (timeRange : Option String) (nowMs : Nat) : StatsTimeParams :=
  match timeRange with
  | none => StatsTimeParams.noParams
  | some s =>
    if s.data.isEmpty then StatsTimeParams.noParams
    else
      match matchDuration s.data with
      | some (v, u) =>
        let nowSeconds := nowMs / 1000
        let offsetSeconds : Nat := if u == 'm' then v * 60 else v * 3600
        StatsTimeParams.windowParams ((nowSeconds : Int) - (offsetSeconds : Int)) nowSeconds
      | none => StatsTimeParams.passThrough s

/-- Declarative reading of the pattern: the string is a non-empty digit run
followed by one unit letter whose lower-casing is the given unit, and the
value is the digit run's numeric value. -/
def MatchesDurationSpec (s : String) (v : Nat) (unit : Char) : Prop :=
  ∃ ds u, s.data = ds ++ [u] ∧ ds ≠ [] ∧ (∀ c ∈ ds, isDigitChar c = true) ∧
    lowerChar u = unit ∧ (unit = 'm' ∨ unit = 'h') ∧ v = digitsToNat ds

theorem durationCondition_iff (lu : Char) (ds : List Char) :
    durationCondition lu ds = true ↔
      (lu = 'm' ∨ lu = 'h') ∧ ds ≠ [] ∧ (∀ c ∈ ds, isDigitChar c = true) := by
  simp [durationCondition, List.isEmpty_iff, and_assoc]

theorem matchDuration_some_of_spec (s : String) (v : Nat) (unit : Char)
    (h : MatchesDurationSpec s v unit) : matchDuration s.data = some (v, unit) := by
  obtain ⟨ds, u, hdata, hne, hdig, hlu, huu, hv⟩ := h
  have hcond : durationCondition (lowerChar u) ds = true :=
    (durationCondition_iff _ _).mpr ⟨by rw [hlu]; exact huu, hne, hdig⟩
  rw [hdata]
  unfold matchDuration
  rw [List.getLast?_concat, List.dropLast_concat]
  rw [hlu] at hcond
  simp only [hlu, hv]
  rw [if_pos hcond]

theorem matchDuration_spec_of_some (s : String) (v : Nat) (unit : Char)
    (h : matchDuration s.data = some (v, unit)) : MatchesDurationSpec s v unit := by
  unfold matchDuration at h
  rcases hl : s.data.getLast? with _ | u
  · simp only [hl] at h
    exact Option.noConfusion h
  · simp only [hl] at h
    by_cases hcond : durationCondition (lowerChar u) s.data.dropLast = true
    · rw [if_pos hcond] at h
      have h2 : (digitsToNat s.data.dropLast, lowerChar u) = (v, unit) :=
        Option.some.inj h
      have hv : digitsToNat s.data.dropLast = v := congrArg Prod.fst h2
      have hu : lowerChar u = unit := congrArg Prod.snd h2
      obtain ⟨hor, hne, hdig⟩ := (durationCondition_iff _ _).mp hcond
      refine ⟨s.data.dropLast, u, ?_, hne, hdig, hu, ?_, hv.symm⟩
      · exact (List.dropLast_append_getLast? u hl).symm
      · rw [hu] at hor
        exact hor
    · rw [if_neg hcond] at h
      cases h

/-- C8: a timeRange matching the duration pattern with value v yields
end_time = floor(now/1000) and start_time = end_time minus v times 60 (unit
m) or 3600 (unit h) and no time_range parameter; a non-empty non-matching
timeRange is passed through unchanged as time_range; an omitted timeRange
yields no time parameters at all. -/
theorem claim_C8_getStats (s : String) (v : Nat) (nowMs : Nat) :
    (MatchesDurationSpec s v 'm' →
      getStats (some s) nowMs = StatsTimeParams.windowParams
        (((nowMs / 1000 : Nat) : Int) - ((v * 60 : Nat) : Int)) (nowMs / 1000)) ∧
    (MatchesDurationSpec s v 'h' →
      getStats (some s) nowMs = StatsTimeParams.windowParams
        (((nowMs / 1000 : Nat) : Int) - ((v * 3600 : Nat) : Int)) (nowMs / 1000)) ∧
    (s.data ≠ [] → (∀ w u, ¬ MatchesDurationSpec s w u) →
      getStats (some s) nowMs = StatsTimeParams.passThrough s) ∧
    getStats none nowMs = StatsTimeParams.noParams := by
  refine ⟨?_, ?_, ?_, rfl⟩
  · intro hm
    have hsome := matchDuration_some_of_spec s v 'm' hm
    obtain ⟨ds, u, hdata, hne, -, -, -, -⟩ := hm
    have hempty : s.data.isEmpty = false := by
      rw [hdata]
      simp
    simp [getStats, hempty, hsome]
  · intro hm
    have hsome := matchDuration_some_of_spec s v 'h' hm
    obtain ⟨ds, u, hdata, hne, -, -, -, -⟩ := hm
    have hempty : s.data.isEmpty = false := by
      rw [hdata]
      simp
    simp [getStats, hempty, hsome]
  · intro hne hnm
    have hnone : matchDuration s.data = none := by
      rcases hmd : matchDuration s.data with _ | ⟨w, u⟩
      · rfl
      · exact absurd (matchDuration_spec_of_some s w u hmd) (hnm w u)
    have hempty : s.data.isEmpty = false :=
      Bool.eq_false_iff.mpr (fun habs => hne (List.isEmpty_iff.mp habs))
    simp [getStats, hempty, hnone]

theorem claim_C8_getStats_witness :
    getStats (some "5m") 123456 = StatsTimeParams.windowParams (123 - 300) 123 ∧
    getStats (some "2h") 123456 = StatsTimeParams.windowParams (123 - 7200) 123 ∧
    getStats (some "latest") 123456 = StatsTimeParams.passThrough "latest" ∧
    getStats none 123456 = StatsTimeParams.noParams := by
  refine ⟨?_, ?_, ?_, (claim_C8_getStats "" 0 123456).2.2.2⟩
  · have h := (claim_C8_getStats "5m" 5 123456).1
      ⟨['5'], 'm', by decide, by decide, by decide, by decide, Or.inl rfl, by decide⟩
    exact h.trans (by decide)
  · have h := (claim_C8_getStats "2h" 2 123456).2.1
      ⟨['2'], 'h', by decide, by decide, by decide, by decide, Or.inr rfl, by decide⟩
    exact h.trans (by decide)
  · refine (claim_C8_getStats "latest" 0 123456).2.2.1 (by decide) ?_
    intro w u hm
    have hh := matchDuration_some_of_spec "latest" w u hm
    rw [show matchDuration "latest".data = none from by decide] at hh
    exact Option.noConfusion hh

/-! ## Config store save logic (frontend/src/stores/index.ts) -/

/-- Code-unit comparison of character lists, as the JS sort on keys uses. -/
def charListLe : List Char → List Char → Bool
  | [], _ => true
  | _ :: _, [] => false
  | a :: as, b :: bs =>
    if a.toNat < b.toNat then true
    else if b.toNat < a.toNat then false
    else charListLe as bs

/-- Code-unit comparison of strings. -/
def strLe (a b : String) : Bool :=
  charListLe a.data b.data

/-- Insert a field into a key-sorted object, keeping it sorted. -/
def insertField (k : String) (v : Json) : JsonObj → JsonObj
  | .nil => .cons k v .nil
  | .cons k' v' tl =>
    if strLe k k' then .cons k v (.cons k' v' tl)
    else .cons k' v' (insertField k v tl)

/-- Sort an object's fields by key (insertion sort). -/
def sortFields : JsonObj → JsonObj
  | .nil => .nil
  | .cons k v tl => insertField k v (sortFields tl)

mutual
/-- Embedded from stableStringify in stores/index.ts, read at the level of
the document: the top-level keys of an object are sorted (values below them
left raw, as the JS code stringifies them raw), and arrays stabilize each
element recursively.  Two values produce the same stableStringify string
exactly when their stableNorm forms are equal, the serializer being
injective. -/
def stableNorm : Json → Json
  | .obj fs => .obj (sortFields fs)
  | .arr es => .arr (stableNormArr es)
  | x => x

/-- Elementwise stableNorm on arrays. -/
def stableNormArr : JsonArr → JsonArr
  | .nil => .nil
  | .cons e tl => .cons (stableNorm e) (stableNormArr tl)
end

/-- Per-entry metadata (frontend/src/types). -/
structure ConfigMetadata where
  editable : Bool
  requires_restart : Bool
deriving DecidableEq, Repr

/-- A config entry: key, value, optional metadata. -/
structure ConfigEntry where
  key : String
  value : Json
  metadata : Option ConfigMetadata
deriving DecidableEq, Repr

/-- The config-editing session held by the auth store. -/
structure ConfigSession where
  expiresAt : Nat
  lastActive : Nat
deriving DecidableEq, Repr

/-- The slice of the config store's state that saveConfig reads/writes. -/
structure ConfigStoreState where
  configEntries : List ConfigEntry
  originalEntries : List ConfigEntry
  metadataMap : List (String × ConfigMetadata)
  isEditing : Bool
  isSaving : Bool
  validationErrors : List (String × Option String)
  errorMsg : Option String
deriving DecidableEq, Repr

/-- Embedded from the auth store: the config-editing session is valid when
present and not yet expired (expiresAt strictly after the current clock). -/
def isConfigEditingAuthenticated (session : Option ConfigSession) (nowMs : Nat) : Bool :=
  match session with
  | none => false
  | some s => decide (nowMs < s.expiresAt)

/-- Embedded from the config store: hasChanges is false outside editing
mode, and otherwise compares the two entry arrays via stableStringify
(length check plus stringified comparison), which on this model coincides
with plain equality of the entry lists. -/
def hasChanges (st : ConfigStoreState) : Bool :=
  st.isEditing && !(decide (st.configEntries = st.originalEntries))

/-- Embedded from changedEntries' filter: an entry counts as changed when no
original entry shares its key, or the stableStringify of the two values
differ (stableNorm inequality in this model). -/
def entryChangedB (st : ConfigStoreState) (entry : ConfigEntry) : Bool :=
  match st.originalEntries.find? (fun o => o.key == entry.key) with
  | none => true
  | some o => !(decide (stableNorm o.value = stableNorm entry.value))

/-- Embedded from the config store: the changed entries, empty whenever
hasChanges is false. -/
def changedEntries (st : ConfigStoreState) : List ConfigEntry :=
  if hasChanges st then st.configEntries.filter (entryChangedB st) else []

/-- Embedded from the config store: some validation error is set. -/
def hasValidationErrors (st : ConfigStoreState) : Bool :=
  st.validationErrors.any (fun p => p.2.isSome)

/-- Embedded from the config store: the canSave gate. -/
def canSave (st : ConfigStoreState) (session : Option ConfigSession) (nowMs : Nat) : Bool :=
  hasChanges st && !hasValidationErrors st && !st.isSaving &&
    isConfigEditingAuthenticated session nowMs

/-- Embedded from saveConfig: an entry's effective metadata is its own,
falling back to the store's metadata map. -/
def effectiveMeta (st : ConfigStoreState) (entry : ConfigEntry) : Option ConfigMetadata :=
  match entry.metadata with
  | some m => some m
  | none => (st.metadataMap.find? (fun p => p.1 == entry.key)).map (fun p => p.2)

/-- Is the entry's effective metadata present and marked editable? -/
def entryEditableB (st : ConfigStoreState) (e : ConfigEntry) : Bool :=
  ((effectiveMeta st e).map (fun m => m.editable)).getD false

/-- Embedded from saveConfig: the body of the update request — the changed
entries whose effective metadata is editable, as key/value pairs. -/
def saveUpdates (st : ConfigStoreState) : List (String × Json) :=
  ((changedEntries st).filter (entryEditableB st)).map (fun e => (e.key, e.value))

/-- What saveConfig does before any network response arrives: either no
request is issued (the function returns false) or an update request with
the given body is issued. -/
inductive SaveOutcome where
  | noRequest : SaveOutcome
  | request (body : List (String × Json)) : SaveOutcome
deriving DecidableEq, Repr

/-- Embedded from saveConfig's failure branch: the message set when the
gate rejects the save (none when only isSaving blocked it, matching the
code's if/else chain). -/
def saveFailureMsg (st : ConfigStoreState) (session : Option ConfigSession)
    (nowMs : Nat) : Option String :=
  if !hasChanges st then some "no changes to save"
  else if hasValidationErrors st then some "validation errors present"
  else if !(isConfigEditingAuthenticated session nowMs) then some "session expired"
  else none

/-- Embedded from saveConfig in stores/index.ts, up to the point where the
update request is issued: a rejected save returns false, touching only the
error message; an accepted save marks saving in progress and issues the
request with the editable changed entries. -/
def saveConfig (st : ConfigStoreState) (session : Option ConfigSession) (nowMs : Nat) :
    SaveOutcome × ConfigStoreState :=
  if canSave st session nowMs then
    (SaveOutcome.request (saveUpdates st), { st with isSaving := true, errorMsg := none })
  else
    (SaveOutcome.noRequest,
      { st with errorMsg :=
          match saveFailureMsg st session nowMs with
          | some m => some m
          | none => st.errorMsg })

/-- Editable entry with key a and value 1. -/
def entryOld : ConfigEntry :=
  { key := "a", value := Json.str "1",
    metadata := some { editable := true, requires_restart := false } }

/-- The same entry with a different value (an actual edit of key a). -/
def entryNew : ConfigEntry :=
  { key := "a", value := Json.str "2",
    metadata := some { editable := true, requires_restart := false } }

/-- State refuting C7 as stated: editing is on and the arrays differ (the
original entry was deleted), so hasChanges holds, yet no entry is changed
entry-wise — and a request is still issued, with an empty body. -/
def cexState : ConfigStoreState :=
  { configEntries := [],
    originalEntries := [entryOld],
    metadataMap := [], isEditing := true, isSaving := false,
    validationErrors := [], errorMsg := none }

/-- A valid (unexpired, at clock 0) config-editing session. -/
def cexSession : Option ConfigSession :=
  some { expiresAt := 1000, lastActive := 0 }

/-- C7 counterexample: with no changed entries (changedEntries is empty),
no validation errors, no save in progress, and a live session, saveConfig
still issues an update request (with an empty body) instead of returning
false — the code gates on hasChanges, not on changedEntries. -/
theorem claim_C7_counterexample :
    changedEntries cexState = [] ∧
    hasValidationErrors cexState = false ∧
    cexState.isSaving = false ∧
    isConfigEditingAuthenticated cexSession 0 = true ∧
    (saveConfig cexState cexSession 0).1 = SaveOutcome.request [] := by
  decide

/-- C7 (amended): saveConfig issues no request and returns false exactly
when canSave fails — hasChanges false (not editing or arrays equal), or a
validation error, or a save in progress, or an absent/expired session —
leaving configEntries and originalEntries unchanged; when a request is
issued its body holds exactly the entries that are editable and changed
(which can be empty when the arrays differ only structurally). -/
theorem claim_C7_saveConfig (st : ConfigStoreState) (session : Option ConfigSession)
    (nowMs : Nat) :
    (canSave st session nowMs = false →
      (saveConfig st session nowMs).1 = SaveOutcome.noRequest ∧
      (saveConfig st session nowMs).2.configEntries = st.configEntries ∧
      (saveConfig st session nowMs).2.originalEntries = st.originalEntries) ∧
    (canSave st session nowMs = false ↔
      (hasChanges st = false ∨ hasValidationErrors st = true ∨ st.isSaving = true ∨
        isConfigEditingAuthenticated session nowMs = false)) ∧
    (canSave st session nowMs = true →
      (saveConfig st session nowMs).1 = SaveOutcome.request (saveUpdates st)) ∧
    (∀ e, e ∈ (changedEntries st).filter (entryEditableB st) ↔
      (hasChanges st = true ∧ e ∈ st.configEntries ∧ entryChangedB st e = true ∧
        entryEditableB st e = true)) := by
  refine ⟨?_, ?_, ?_, ?_⟩
  · intro h
    have hn : ¬ (canSave st session nowMs = true) := by simp [h]
    unfold saveConfig
    rw [if_neg hn]
    exact ⟨rfl, rfl, rfl⟩
  · cases hA : hasChanges st <;> cases hB : hasValidationErrors st <;>
      cases hC : st.isSaving <;> cases hD : isConfigEditingAuthenticated session nowMs <;>
      simp [canSave, hA, hB, hC, hD]
  · intro h
    unfold saveConfig
    rw [if_pos h]
  · intro e
    constructor
    · intro hmem
      have h1 := List.mem_filter.mp hmem
      by_cases hch : hasChanges st = true
      · have hce : changedEntries st = st.configEntries.filter (entryChangedB st) := by
          unfold changedEntries
          rw [if_pos hch]
        rw [hce] at h1
        have h3 := List.mem_filter.mp h1.1
        exact ⟨hch, h3.1, h3.2, h1.2⟩
      · have hce : changedEntries st = [] := by
          unfold changedEntries
          rw [if_neg hch]
        rw [hce] at h1
        exact absurd h1.1 (List.not_mem_nil e)
    · rintro ⟨hch, hmem, hchg, hed⟩
      apply List.mem_filter.mpr
      refine ⟨?_, hed⟩
      unfold changedEntries
      rw [if_pos hch]
      exact List.mem_filter.mpr ⟨hmem, hchg⟩

/-- State on which a save goes through: one entry whose value changed and
whose metadata is editable. -/
def okState : ConfigStoreState :=
  { configEntries := [entryNew],
    originalEntries := [entryOld],
    metadataMap := [], isEditing := true, isSaving := false,
    validationErrors := [], errorMsg := none }

theorem claim_C7_saveConfig_witness :
    (saveConfig okState none 0).1 = SaveOutcome.noRequest ∧
    (saveConfig okState cexSession 0).1 = SaveOutcome.request [("a", Json.str "2")] ∧
    entryNew ∈ (changedEntries okState).filter (entryEditableB okState) := by
  refine ⟨?_, ?_, ?_⟩
  · exact ((claim_C7_saveConfig okState none 0).1 (by decide)).1
  · exact ((claim_C7_saveConfig okState cexSession 0).2.2.1 (by decide)).trans (by decide)
  · exact ((claim_C7_saveConfig okState cexSession 0).2.2.2 _).mpr
      ⟨by decide, by decide, by decide, by decide⟩

end AnyRouter
